import Mathlib

/-!
Verification of the sliding-window rate-limit middleware
(`src/api/middleware/rate_limit.py`) and the sequence-aware execution
tracer (`src/core/logging.py`) of the agent_toolkit repository.

Timestamps (Python floats produced by `time.time()`) are embedded as
rationals; Python ints as `Int`.  A Redis sorted set whose members are
`str(score)` is embedded as its list of scores together with its
time-to-live, and each Redis command of the pipeline is a function on
that state.
-/

namespace RateLimit

/-- A Redis sorted set as used by the middleware: every member is
`str(score)`, so the set is determined by its scores; `ttl` records the
expiry set by `EXPIRE`. -/
@[ext]
structure ZSet where
  scores : List ℚ
  ttl : Option ℚ
deriving Repr, DecidableEq

/-- The empty sorted set (key absent from Redis). -/
def ZSet.empty : ZSet := ⟨[], none⟩

/-- `ZREMRANGEBYSCORE key lo hi`: removes members whose score lies in
`[lo, hi]` (both bounds inclusive, Redis semantics); returns the new set
and the number of removed members. -/
def zremrangebyscore (z : ZSet) (lo hi : ℚ) : ZSet × ℤ :=
  let kept := z.scores.filter (fun t => ¬ (lo ≤ t ∧ t ≤ hi))
  (⟨kept, z.ttl⟩, (z.scores.length - kept.length : ℤ))

/-- `ZADD key {str(now): now}`: the member is `str(now)`, hence adding an
already-present score leaves the set unchanged (same member, same score);
otherwise the score is inserted.  Returns the number of newly added
members, as Redis does. -/
def zadd (z : ZSet) (x : ℚ) : ZSet × ℤ :=
  if x ∈ z.scores then (z, 0) else (⟨z.scores ++ [x], z.ttl⟩, 1)

/-- `ZCOUNT key lo hi`: number of members with score in `[lo, hi]`,
both bounds inclusive. -/
def zcount (z : ZSet) (lo hi : ℚ) : ℤ :=
  (z.scores.countP (fun t => decide (lo ≤ t ∧ t ≤ hi)) : ℤ)

/-- `EXPIRE key seconds`: resets the time-to-live of the key. -/
def expire (z : ZSet) (seconds : ℚ) : ZSet × ℤ :=
  (⟨z.scores, some seconds⟩, 1)

/-- Python `int(q)` on a rational: truncation toward zero. -/
def pyInt (q : ℚ) : ℤ := if 0 ≤ q then ⌊q⌋ else ⌈q⌉

/-- The pipeline body of `_check_rate_limit` (rate_limit.py lines 50-58):
`window_start = now - window_size`, then, as one atomically applied
batch, `ZREMRANGEBYSCORE key 0 window_start`, `ZADD key {str(now): now}`,
`ZCOUNT key window_start now`, `EXPIRE key window_size`; returns the new
store state and the pipeline result list. -/
def rateLimitPipe (z : ZSet) (now window_size : ℚ) : ZSet × List ℤ :=
  let window_start := now - window_size
  let r1 := zremrangebyscore z 0 window_start
  let r2 := zadd r1.1 now
  let r3 := zcount r2.1 window_start now
  let r4 := expire r2.1 window_size
  (r4.1, [r1.2, r2.2, r3, r4.2])

/-- `current_count = results[2]` (rate_limit.py line 59). -/
def currentCount (z : ZSet) (now window_size : ℚ) : ℤ :=
  (rateLimitPipe z now window_size).2.getD 2 0

/-- `window_reset = int(now + self.window_size)` (rate_limit.py line 60). -/
def windowReset (now window_size : ℚ) : ℤ := pyInt (now + window_size)

/-- `is_rate_limited = current_count > self.max_requests`
(rate_limit.py line 97). -/
def isRateLimited (current_count max_requests : ℤ) : Bool :=
  decide (current_count > max_requests)

/-- `max(0, self.max_requests - current_count)`, the value of the
`X-RateLimit-Remaining` header added by `send_wrapper`
(rate_limit.py line 113). -/
def remainingOf (max_requests current_count : ℤ) : ℤ :=
  max 0 (max_requests - current_count)

/-- Store state after a run of requests for one key: each request applies
the whole pipeline batch at its own timestamp (the batch is a single
atomic state transition, one `pipe.execute()` round trip). -/
def runStore (window_size : ℚ) (z : ZSet) : List ℚ → ZSet
  | [] => z
  | t :: ts => runStore window_size (rateLimitPipe z t window_size).1 ts

/-- The `current_count` values observed by a run of requests for one key,
in request order. -/
def runCounts (window_size : ℚ) (z : ZSet) : List ℚ → List ℤ
  | [] => []
  | t :: ts =>
      currentCount z t window_size ::
        runCounts window_size (rateLimitPipe z t window_size).1 ts

/-- The `current_count` observed by the i-th request of a run (0 when the
run is shorter than `i + 1`). -/
def nthCount (w : ℚ) (z : ZSet) (times : List ℚ) (i : ℕ) : ℤ :=
  (runCounts w z times).getD i 0

/-- Number of admitted requests of a run: those whose `current_count`
does not trip `is_rate_limited` (rate_limit.py line 97). -/
def admittedCount (w : ℚ) (z : ZSet) (times : List ℚ) (max_requests : ℤ) : ℕ :=
  (runCounts w z times).countP (fun cc => isRateLimited cc max_requests = false)

/-- Python exceptions that the embedded middleware can raise or catch. -/
inductive PyErr where
  | nameError (missing : String)
  | exception (msg : String)
deriving Repr, DecidableEq

/-- The modules bound in the namespace of `rate_limit.py` by its import
statements (lines 3-9).  `logging` is not among them, although the module
body refers to `logging.INFO`, `logging.ERROR` and `logging.WARNING`. -/
def rateLimitImports : List String :=
  ["fastapi", "starlette.middleware.base", "starlette.types", "time",
   "json", "typing", "uuid"]

/-- Standard values of the `logging` module level constants. -/
def stdLogLevel (attr : String) : ℤ :=
  if attr = "ERROR" then 40
  else if attr = "WARNING" then 30
  else if attr = "INFO" then 20
  else 0

/-- Evaluating the expression `logging.<attr>` inside `rate_limit.py`:
the name `logging` must resolve in the module namespace first; since the
module never imports it, the lookup raises `NameError`. -/
def loggingAttr (attr : String) : Except PyErr ℤ :=
  if "logging" ∈ rateLimitImports then Except.ok (stdLogLevel attr)
  else Except.error (PyErr.nameError "logging")

/-- `RateLimitMiddleware._check_rate_limit` (rate_limit.py lines 42-80),
with the store interaction abstracted as its outcome: `Except.error e`
when the Redis pipeline raises `e`, `Except.ok z` when it executes
against store state `z`.  The `try` block runs the pipeline, computes
`current_count` and `window_reset`, then calls
`logger.log_with_context(logging.INFO, ...)` (line 62); the
`except Exception` handler (lines 72-80) calls
`logger.log_with_context(logging.ERROR, ...)` and then returns the
fail-open pair `(0, int(now + window_size))`. -/
def checkRateLimit (store : Except PyErr ZSet) (now window_size : ℚ) :
    Except PyErr (ℤ × ℤ) :=
  let attempt : Except PyErr (ℤ × ℤ) :=
    match store with
    | Except.error e => Except.error e
    | Except.ok z =>
        let res := rateLimitPipe z now window_size
        let current_count := res.2.getD 2 0
        let window_reset := windowReset now window_size
        match loggingAttr "INFO" with
        | Except.error e => Except.error e
        | Except.ok _ => Except.ok (current_count, window_reset)
  match attempt with
  | Except.ok v => Except.ok v
  | Except.error _ =>
      match loggingAttr "ERROR" with
      | Except.error e2 => Except.error e2
      | Except.ok _ => Except.ok (0, windowReset now window_size)

/-- What `_check_rate_limit` would do if `rate_limit.py` imported
`logging` — the behaviour the spec describes.  Modelled from the spec:
the store error is logged and the fail-open pair is returned. -/
def checkRateLimitIntended (store : Except PyErr ZSet) (now window_size : ℚ) :
    Except PyErr (ℤ × ℤ) :=
  match store with
  | Except.error _ => Except.ok (0, windowReset now window_size)
  | Except.ok z =>
      let res := rateLimitPipe z now window_size
      Except.ok (res.2.getD 2 0, windowReset now window_size)

/-- An ASGI message sent to the client: either the response start (status
and headers) or a body chunk. -/
inductive SentMessage where
  | start (status : ℤ) (headers : List (String × String))
  | body (contents : String)
deriving Repr, DecidableEq

/-- `json.dumps({"error": "Rate limit exceeded", "reset_at": window_reset})`
(rate_limit.py lines 132-135). -/
def jsonRateLimitBody (window_reset : ℤ) : String :=
  "\x7b\"error\": \"Rate limit exceeded\", \"reset_at\": " ++
    toString window_reset ++ "\x7d"

/-- The headers `send_wrapper` appends to every forwarded response start
(rate_limit.py lines 110-115). -/
def sendWrapperHeaders (max_requests current_count window_reset : ℤ) :
    List (String × String) :=
  [("X-RateLimit-Limit", toString max_requests),
   ("X-RateLimit-Remaining", toString (remainingOf max_requests current_count)),
   ("X-RateLimit-Reset", toString window_reset)]

/-- The dispatch at the end of `RateLimitMiddleware.__call__`
(rate_limit.py lines 97-147): given the pair returned by the rate-limit
check, either short-circuit with the 429 response (lines 120-139) or
invoke the wrapped application (line 147).  Returns the messages the gate
itself sends and whether the downstream app was called. -/
def gateDispatch (max_requests current_count window_reset : ℤ) :
    List SentMessage × Bool :=
  if isRateLimited current_count max_requests then
    ([SentMessage.start 429
        [("content-type", "application/json"),
         ("X-RateLimit-Limit", toString max_requests),
         ("X-RateLimit-Remaining", "0"),
         ("X-RateLimit-Reset", toString window_reset)],
      SentMessage.body (jsonRateLimitBody window_reset)],
     false)
  else ([], true)

/-- The client of an HTTP connection as starlette exposes it. -/
structure ClientInfo where
  host : String
deriving Repr, DecidableEq

/-- `client_ip = request.client.host if request.client else "unknown"`
(rate_limit.py line 91). -/
def resolveClientIp (client : Option ClientInfo) : String :=
  match client with
  | some c => c.host
  | none => "unknown"

/-- `key = f"ratelimit:{client_ip}"` (rate_limit.py line 44). -/
def redisKey (client_ip : String) : String := "ratelimit:" ++ client_ip

/-- The multi-key Redis store: an association list from keys to sorted
sets. -/
def KeyedStore : Type := List (String × ZSet)

/-- Reading a key from the store; an absent key is the empty set. -/
def kget (s : KeyedStore) (k : String) : ZSet :=
  match s with
  | [] => ZSet.empty
  | (k0, z0) :: rest => if k0 = k then z0 else kget rest k

/-- Writing a key back to the store. -/
def kset (s : KeyedStore) (k : String) (z : ZSet) : KeyedStore :=
  match s with
  | [] => [(k, z)]
  | (k0, z0) :: rest =>
      if k0 = k then (k, z) :: rest else (k0, z0) :: kset rest k z

/-- One gated evaluation: resolve the client key (rate_limit.py lines 91
and 44), run the pipeline batch on that key's set, store the result and
return `(current_count, window_reset)`. -/
def gateEval (s : KeyedStore) (client : Option ClientInfo)
    (now window_size : ℚ) : KeyedStore × ℤ × ℤ :=
  let key := redisKey (resolveClientIp client)
  let res := rateLimitPipe (kget s key) now window_size
  (kset s key res.1, res.2.getD 2 0, windowReset now window_size)

/-- Removal step as the C3 spec sentence words it: keep exactly the
timestamps not strictly below `window_start`, so a timestamp equal to
`window_start` is kept.  Modelled from the spec for comparison with
`zremrangebyscore`. -/
def specRemoveStrictlyBelow (z : ZSet) (window_start : ℚ) : ZSet :=
  ⟨z.scores.filter (fun t => ¬ t < window_start), z.ttl⟩

end RateLimit

namespace Trace

/-- `ExecutionContext` (logging.py lines 27-52): one traced unit of work
and its position in the call hierarchy.  Timestamps are rationals. -/
structure ExecutionContext where
  task_id : String
  sequence_id : String
  parent_sequence_id : Option String
  step_number : ℕ
  tool_name : Option String
  reason : Option String
  start_time : ℚ
  end_time : Option ℚ
deriving Repr, DecidableEq

/-- The context `task_sequence` creates (logging.py lines 131-140):
outermost scope, no parent, step 0, no tool name. -/
def taskCtx (task_id sequence_id description : String) (start_time : ℚ) :
    ExecutionContext :=
  { task_id := task_id
    sequence_id := sequence_id
    parent_sequence_id := none
    step_number := 0
    tool_name := none
    reason := some description
    start_time := start_time
    end_time := none }

/-- The context `tool_sequence` creates under `parent_context`
(logging.py lines 172-181): same task id, parent link to the current top,
step number one deeper. -/
def toolCtx (parent : ExecutionContext) (sequence_id tool_name reason : String)
    (start_time : ℚ) : ExecutionContext :=
  { task_id := parent.task_id
    sequence_id := sequence_id
    parent_sequence_id := some parent.sequence_id
    step_number := parent.step_number + 1
    tool_name := some tool_name
    reason := some reason
    start_time := start_time
    end_time := none }

/-- Failures raised by or through a scope. -/
inductive TraceErr where
  | runtimeError (msg : String)
  | raised (msg : String)
deriving Repr, DecidableEq

/-- A structured event emitted by the tracer. -/
structure LogEvent where
  message : String
  context : Option ExecutionContext
deriving Repr, DecidableEq

/-- The body of a scope: it runs with the thread-local context slot set
to the scope's context, may rewrite that slot, and either returns or
raises. -/
def ScopeBody : Type :=
  Option ExecutionContext → Except TraceErr Unit × Option ExecutionContext

/-- Outcome of running a scope: the propagated result, the final value of
the thread-local context slot, the events the scope emitted, and the
scope's own context in its final (closed) state. -/
structure ScopeRun where
  result : Except TraceErr Unit
  storage : Option ExecutionContext
  events : List LogEvent
  created : Option ExecutionContext
deriving Repr

/-- `SequenceAwareLogManager.tool_sequence` (logging.py lines 154-194):
fails fast when the context slot is empty (lines 168-170); otherwise
creates the child context, saves the previous slot value (line 183),
pushes the child, emits "started", runs the body, and in the `finally`
block assigns `end_time`, emits "completed" and restores the saved slot
value (lines 190-194) — also when the body raised. -/
def tool_sequence (sequence_id : String) (tStart tEnd : ℚ)
    (tool_name reason : String) (storage : Option ExecutionContext)
    (body : ScopeBody) : ScopeRun :=
  match storage with
  | none =>
      { result := Except.error
          (TraceErr.runtimeError "Tool sequence must be within a task sequence")
        storage := none
        events := []
        created := none }
  | some parent_context =>
      let context := toolCtx parent_context sequence_id tool_name reason tStart
      let previous_context := some parent_context
      let startEvent : LogEvent :=
        ⟨"Starting tool sequence: " ++ tool_name, some context⟩
      let r := body (some context)
      let closed := { context with end_time := some tEnd }
      let endEvent : LogEvent :=
        ⟨"Completed tool sequence: " ++ tool_name, some closed⟩
      { result := r.1
        storage := previous_context
        events := [startEvent, endEvent]
        created := some closed }

/-- `SequenceAwareLogManager.task_sequence` (logging.py lines 118-152):
creates the outermost context, stores it in the slot, emits "started",
runs the body, and in the `finally` block assigns `end_time`, emits
"completed" and clears the slot (line 152). -/
def task_sequence (sequence_id : String) (tStart tEnd : ℚ)
    (task_id description : String) (body : ScopeBody) : ScopeRun :=
  let context := taskCtx task_id sequence_id description tStart
  let startEvent : LogEvent :=
    ⟨"Starting task sequence: " ++ description, some context⟩
  let r := body (some context)
  let closed := { context with end_time := some tEnd }
  let endEvent : LogEvent :=
    ⟨"Completed task sequence: " ++ description, some closed⟩
  { result := r.1
    storage := none
    events := [startEvent, endEvent]
    created := some closed }

end Trace

namespace RateLimit

theorem runStore_nil (w : ℚ) (z : ZSet) : runStore w z [] = z := rfl

theorem runStore_cons (w : ℚ) (z : ZSet) (t : ℚ) (ts : List ℚ) :
    runStore w z (t :: ts) = runStore w (rateLimitPipe z t w).1 ts := rfl

theorem runCounts_cons (w : ℚ) (z : ZSet) (t : ℚ) (ts : List ℚ) :
    runCounts w z (t :: ts) =
      currentCount z t w :: runCounts w (rateLimitPipe z t w).1 ts := rfl

theorem runCounts_length (w : ℚ) (z : ZSet) (ts : List ℚ) :
    (runCounts w z ts).length = ts.length := by
  induction ts generalizing z with
  | nil => rfl
  | cons t ts ih => simp [runCounts, ih]

/-- The third pipeline result is the `ZCOUNT` of the window after removal
and insertion. -/
theorem currentCount_eq_zcount (z : ZSet) (now w : ℚ) :
    currentCount z now w =
      zcount (zadd (zremrangebyscore z 0 (now - w)).1 now).1 (now - w) now := by
  simp [currentCount, rateLimitPipe, List.getD]

/-- The whole pipeline keeps the scores of the removal-then-insert steps;
`EXPIRE` only touches the time-to-live. -/
theorem rateLimitPipe_scores (z : ZSet) (now w : ℚ) :
    (rateLimitPipe z now w).1 =
      ⟨(zadd (zremrangebyscore z 0 (now - w)).1 now).1.scores, some w⟩ := by
  simp [rateLimitPipe, expire]

/-- Scores after `ZREMRANGEBYSCORE`. -/
theorem zrem_scores (z : ZSet) (lo hi : ℚ) :
    (zremrangebyscore z lo hi).1.scores =
      z.scores.filter (fun t => ¬ (lo ≤ t ∧ t ≤ hi)) := rfl

/-- Time-to-live is untouched by `ZREMRANGEBYSCORE`. -/
theorem zrem_ttl (z : ZSet) (lo hi : ℚ) :
    (zremrangebyscore z lo hi).1.ttl = z.ttl := rfl

/-- Removal keeps the whole set when no score lies in the removed range. -/
theorem zrem_keep_all {z : ZSet} {lo hi : ℚ}
    (h : ∀ t ∈ z.scores, ¬ (lo ≤ t ∧ t ≤ hi)) :
    (zremrangebyscore z lo hi).1 = z := by
  ext1
  · rw [zrem_scores, List.filter_eq_self]
    intro a ha
    exact decide_eq_true (h a ha)
  · rw [zrem_ttl]

/-- Adding a fresh score appends it. -/
theorem zadd_not_mem {z : ZSet} {x : ℚ} (h : x ∉ z.scores) :
    (zadd z x).1 = ⟨z.scores ++ [x], z.ttl⟩ := by
  rw [zadd, if_neg h]

/-- Evaluation of `ZCOUNT` through `countP`. -/
theorem zcount_eq (z : ZSet) (lo hi : ℚ) :
    zcount z lo hi =
      (z.scores.countP (fun t => decide (lo ≤ t ∧ t ≤ hi)) : ℤ) := rfl

/-- When every member is inside the counted range, `ZCOUNT` is the size of
the set. -/
theorem zcount_all {z : ZSet} {lo hi : ℚ}
    (h : ∀ t ∈ z.scores, lo ≤ t ∧ t ≤ hi) :
    zcount z lo hi = (z.scores.length : ℤ) := by
  rw [zcount_eq]
  have : z.scores.countP (fun t => decide (lo ≤ t ∧ t ≤ hi)) = z.scores.length := by
    rw [List.countP_eq_length]
    intro a ha
    exact decide_eq_true (h a ha)
  rw [this]

/-- One pipeline step from a store holding exactly the previous in-window
timestamps: the store becomes those timestamps plus `now`, and
`current_count` is their number plus one. -/
theorem pipe_step_exact (w : ℚ) (ttl : Option ℚ) (done : List ℚ) (t : ℚ)
    (hlt : ∀ d ∈ done, d < t)
    (hwin : ∀ d ∈ done, t - d < w)
    (hw : 0 < w) :
    (rateLimitPipe ⟨done, ttl⟩ t w).1 = ⟨done ++ [t], some w⟩ ∧
      currentCount ⟨done, ttl⟩ t w = (done.length : ℤ) + 1 := by
  have hkeep : (zremrangebyscore ⟨done, ttl⟩ 0 (t - w)).1 = ⟨done, ttl⟩ := by
    apply zrem_keep_all
    intro d hd
    rintro ⟨-, h2⟩
    have := hwin d hd
    linarith
  have hnot : t ∉ done := fun ht => absurd (hlt t ht) (lt_irrefl t)
  have hadd : (zadd (zremrangebyscore ⟨done, ttl⟩ 0 (t - w)).1 t).1 =
      ⟨done ++ [t], ttl⟩ := by
    rw [hkeep]
    exact zadd_not_mem hnot
  constructor
  · rw [rateLimitPipe_scores, hadd]
  · rw [currentCount_eq_zcount, hadd]
    have hall : ∀ x ∈ done ++ [t], t - w ≤ x ∧ x ≤ t := by
      intro x hx
      rcases List.mem_append.mp hx with hx | hx
      · exact ⟨by linarith [hwin x hx], le_of_lt (hlt x hx)⟩
      · have : x = t := by simpa using hx
        subst this
        exact ⟨by linarith, le_refl x⟩
    have := @zcount_all ⟨done ++ [t], ttl⟩ (t - w) t hall
    simpa using this

/-- Exact count sequence: starting from a store holding exactly the
previous timestamps `done`, the i-th request of `times` observes
`current_count = done.length + i + 1`. -/
theorem runCounts_exact (w : ℚ) :
    ∀ (times done : List ℚ) (ttl : Option ℚ),
      (done ++ times).Sorted (· < ·) →
      (∀ a ∈ done ++ times, ∀ b ∈ done ++ times, b - a < w) →
      ∀ i, i < times.length →
        (runCounts w ⟨done, ttl⟩ times).getD i 0 = (done.length : ℤ) + i + 1 := by
  intro times
  induction times with
  | nil => intro done ttl _ _ i hi; simp at hi
  | cons t ts ih =>
    intro done ttl hsort hwin i hi
    have hmem_t : t ∈ done ++ t :: ts := by simp
    have hsplit := List.pairwise_append.mp hsort
    have hlt : ∀ d ∈ done, d < t := fun d hd => hsplit.2.2 d hd t (by simp)
    have hw : 0 < w := by
      have := hwin t hmem_t t hmem_t
      simpa using this
    have hstep := pipe_step_exact w ttl done t
      hlt
      (fun d hd => hwin d (by simp [hd]) t hmem_t)
      hw
    have hassoc : (done ++ [t]) ++ ts = done ++ t :: ts := by simp
    match i with
    | 0 =>
      simp only [runCounts, List.getD, List.get?_cons_zero, Option.getD_some]
      simpa using hstep.2
    | Nat.succ j =>
      have hji : j < ts.length := by simpa using hi
      have := ih (done ++ [t]) (some w)
        (by rw [hassoc]; exact hsort)
        (by rw [hassoc]; exact hwin)
        j hji
      calc (runCounts w ⟨done, ttl⟩ (t :: ts)).getD (j + 1) 0
          = (runCounts w (rateLimitPipe ⟨done, ttl⟩ t w).1 ts).getD j 0 := by
            simp [runCounts, List.getD]
        _ = ((done ++ [t]).length : ℤ) + j + 1 := by rw [hstep.1]; exact this
        _ = (done.length : ℤ) + (j + 1) + 1 := by
            simp [List.length_append]
            ring

/-- `zadd` never loses members, and afterwards the added score is a
member. -/
theorem zadd_mem {z : ZSet} {x : ℚ} :
    x ∈ (zadd z x).1.scores ∧ ∀ y ∈ z.scores, y ∈ (zadd z x).1.scores := by
  by_cases h : x ∈ z.scores
  · rw [zadd, if_pos h]
    exact ⟨h, fun y hy => hy⟩
  · rw [zadd_not_mem h]
    constructor
    · simp
    · intro y hy
      simp [hy]

/-- One pipeline step from an arbitrary store that already holds the
distinct earlier in-window timestamps `done`: all of them together with
`t` are still members afterwards, and `current_count` is at least
`done.length + 1` — no earlier insertion is lost. -/
theorem pipe_step_lower (w : ℚ) (z : ZSet) (done : List ℚ) (t : ℚ)
    (hsub : ∀ d ∈ done, d ∈ z.scores)
    (hnodup : done.Nodup)
    (hlt : ∀ d ∈ done, d < t)
    (hwin : ∀ d ∈ done, t - d < w)
    (hw : 0 < w) :
    (∀ d ∈ done ++ [t], d ∈ (rateLimitPipe z t w).1.scores) ∧
      (done.length : ℤ) + 1 ≤ currentCount z t w := by
  have hkeep : ∀ d ∈ done, d ∈ (zremrangebyscore z 0 (t - w)).1.scores := by
    intro d hd
    rw [zrem_scores, List.mem_filter]
    refine ⟨hsub d hd, decide_eq_true ?_⟩
    rintro ⟨-, h2⟩
    have := hwin d hd
    linarith
  have hmem2 : ∀ d ∈ done ++ [t],
      d ∈ (zadd (zremrangebyscore z 0 (t - w)).1 t).1.scores := by
    intro d hd
    rcases List.mem_append.mp hd with hd | hd
    · exact zadd_mem.2 d (hkeep d hd)
    · have : d = t := by simpa using hd
      subst this
      exact zadd_mem.1
  constructor
  · intro d hd
    rw [rateLimitPipe_scores]
    exact hmem2 d hd
  · rw [currentCount_eq_zcount, zcount_eq]
    set l := (zadd (zremrangebyscore z 0 (t - w)).1 t).1.scores with hl
    have hnodup2 : (done ++ [t]).Nodup := by
      rw [List.nodup_append]
      refine ⟨hnodup, List.nodup_singleton t, ?_⟩
      intro a ha hb
      have : a = t := by simpa using hb
      subst this
      exact absurd (hlt a ha) (lt_irrefl a)
    have hsubf : done ++ [t] ⊆
        l.filter (fun x => decide (t - w ≤ x ∧ x ≤ t)) := by
      intro d hd
      rw [List.mem_filter]
      refine ⟨hmem2 d hd, decide_eq_true ?_⟩
      rcases List.mem_append.mp hd with hd | hd
      · exact ⟨by linarith [hwin d hd], le_of_lt (hlt d hd)⟩
      · have : d = t := by simpa using hd
        subst this
        exact ⟨by linarith, le_refl d⟩
    have hle := (hnodup2.subperm hsubf).length_le
    rw [List.countP_eq_length_filter]
    have : done.length + 1 ≤
        (l.filter (fun x => decide (t - w ≤ x ∧ x ≤ t))).length := by
      simpa using hle
    exact_mod_cast this

/-- Count lower bound over a run: from any starting store, the i-th
request of a sorted in-window run observes `current_count ≥ i + 1` —
each evaluation sees every earlier insertion. -/
theorem runCounts_lower (w : ℚ) :
    ∀ (times done : List ℚ) (z : ZSet),
      (∀ d ∈ done, d ∈ z.scores) →
      (done ++ times).Sorted (· < ·) →
      (∀ a ∈ done ++ times, ∀ b ∈ done ++ times, b - a < w) →
      ∀ i, i < times.length →
        (done.length : ℤ) + i + 1 ≤ (runCounts w z times).getD i 0 := by
  intro times
  induction times with
  | nil => intro done z _ _ _ i hi; simp at hi
  | cons t ts ih =>
    intro done z hsub hsort hwin i hi
    have hmem_t : t ∈ done ++ t :: ts := by simp
    have hsplit := List.pairwise_append.mp hsort
    have hlt : ∀ d ∈ done, d < t := fun d hd => hsplit.2.2 d hd t (by simp)
    have hw : 0 < w := by
      have := hwin t hmem_t t hmem_t
      simpa using this
    have hnodup : done.Nodup := by
      have hdsort : done.Sorted (· < ·) := hsplit.1
      exact hdsort.nodup
    have hstep := pipe_step_lower w z done t hsub hnodup hlt
      (fun d hd => hwin d (by simp [hd]) t hmem_t) hw
    have hassoc : (done ++ [t]) ++ ts = done ++ t :: ts := by simp
    match i with
    | 0 =>
      simp only [runCounts, List.getD, List.get?_cons_zero, Option.getD_some]
      simpa using hstep.2
    | Nat.succ j =>
      have hji : j < ts.length := by simpa using hi
      have := ih (done ++ [t]) (rateLimitPipe z t w).1
        hstep.1
        (by rw [hassoc]; exact hsort)
        (by rw [hassoc]; exact hwin)
        j hji
      have heq : (runCounts w z (t :: ts)).getD (j + 1) 0 =
          (runCounts w (rateLimitPipe z t w).1 ts).getD j 0 := by
        simp [runCounts, List.getD]
      rw [heq]
      have hlen : ((done ++ [t]).length : ℤ) = (done.length : ℤ) + 1 := by
        simp
      rw [hlen] at this
      push_cast [Nat.succ_eq_add_one]
      linarith

/-- Counting a predicate that fails from position `k` onwards is bounded
by `k`. -/
theorem countP_le_of_tail_false (p : ℤ → Bool) (l : List ℤ) (k : ℕ)
    (h : ∀ i, k ≤ i → i < l.length → p (l.getD i 0) = false) :
    l.countP p ≤ k := by
  have hzero : (l.drop k).countP p = 0 := by
    rw [List.countP_eq_zero]
    intro a ha
    obtain ⟨⟨j, hj⟩, hja⟩ := List.mem_iff_get.mp ha
    have hlen : k + j < l.length := by
      have := hj
      rw [List.length_drop] at this
      omega
    have hget : a = l.getD (k + j) 0 := by
      rw [List.getD_eq_getElem l 0 hlen, ← hja]
      simp [List.getElem_drop]
    rw [hget, h (k + j) (by omega) hlen]
    simp
  calc l.countP p = (l.take k ++ l.drop k).countP p := by
        rw [List.take_append_drop]
    _ = (l.take k).countP p + (l.drop k).countP p := by
        rw [List.countP_append]
    _ ≤ k := by
        have h1 := @List.countP_le_length _ p (l.take k)
        have h2 := List.length_take_le k l
        omega

/-- C1: after the admission batch has recorded the request's own
timestamp, the request is admitted exactly when the resulting
`current_count` is at most `max_requests` (rate_limit.py line 97); for a
run of requests from one key inside one window starting from an empty
store, the i-th request (0-based) observes `current_count = i + 1`, is
admitted iff `i + 1 ≤ max_requests` with `remaining = max_requests -
(i + 1)` — decreasing by one per request and reaching 0 exactly at the
`max_requests`-th request — and every later in-window timestamp,
beginning with the `(max_requests + 1)`-th, is rejected with
`remaining = 0`. -/
theorem c1_admission_run (w : ℚ) (max_requests : ℤ) (times : List ℚ)
    (hsort : times.Sorted (· < ·))
    (hwin : ∀ a ∈ times, ∀ b ∈ times, b - a < w)
    (i : ℕ) (hi : i < times.length) :
    nthCount w ZSet.empty times i = (i : ℤ) + 1 ∧
    (isRateLimited (nthCount w ZSet.empty times i) max_requests = false ↔
      (i : ℤ) + 1 ≤ max_requests) ∧
    ((i : ℤ) + 1 ≤ max_requests →
      remainingOf max_requests (nthCount w ZSet.empty times i) =
        max_requests - ((i : ℤ) + 1)) ∧
    (max_requests < (i : ℤ) + 1 →
      isRateLimited (nthCount w ZSet.empty times i) max_requests = true ∧
      remainingOf max_requests (nthCount w ZSet.empty times i) = 0) := by
  have hcount : nthCount w ZSet.empty times i = (i : ℤ) + 1 := by
    have := runCounts_exact w times [] none (by simpa using hsort)
      (by simpa using hwin) i hi
    simpa [nthCount, ZSet.empty] using this
  refine ⟨hcount, ?_, ?_, ?_⟩
  · rw [hcount]
    simp [isRateLimited, not_lt]
  · intro h
    rw [hcount]
    simp only [remainingOf]
    omega
  · intro h
    rw [hcount]
    constructor
    · simp only [isRateLimited, decide_eq_true_eq]
      omega
    · simp only [remainingOf]
      omega

/-- Witness for C1 on the spec's own example shape: window 2 seconds,
3 requests allowed, four in-window requests; the third request still
passes with `remaining = 0`, the fourth is the first rejected. -/
theorem c1_admission_run_witness :
    nthCount 2 ZSet.empty [0, 1/2, 1, 3/2] 2 = 3 ∧
    isRateLimited (nthCount 2 ZSet.empty [0, 1/2, 1, 3/2] 2) 3 = false ∧
    remainingOf 3 (nthCount 2 ZSet.empty [0, 1/2, 1, 3/2] 2) = 0 ∧
    nthCount 2 ZSet.empty [0, 1/2, 1, 3/2] 3 = 4 ∧
    isRateLimited (nthCount 2 ZSet.empty [0, 1/2, 1, 3/2] 3) 3 = true := by
  have hsort : ([0, 1/2, 1, 3/2] : List ℚ).Sorted (· < ·) := by
    norm_num [List.sorted_cons]
  have hwin : ∀ a ∈ ([0, 1/2, 1, 3/2] : List ℚ),
      ∀ b ∈ ([0, 1/2, 1, 3/2] : List ℚ), b - a < 2 := by
    intro a ha b hb
    fin_cases ha <;> fin_cases hb <;> norm_num
  have h2 := c1_admission_run 2 3 [0, 1/2, 1, 3/2] hsort hwin 2 (by norm_num)
  have h3 := c1_admission_run 2 3 [0, 1/2, 1, 3/2] hsort hwin 3 (by norm_num)
  refine ⟨by simpa using h2.1, h2.2.1.mpr (by norm_num), ?_, by simpa using h3.1, ?_⟩
  · have := h2.2.2.1 (by norm_num)
    simpa using this
  · exact (h3.2.2.2 (by norm_num)).1

/-- C8: the four store sub-operations are one atomically applied batch —
embedded as the single state transition `rateLimitPipe`, one
`pipe.execute()` round trip — so in every serialization of concurrent
same-key evaluations each evaluation's `current_count` includes every
earlier evaluation's inserted timestamp (`count ≥ i + 1` from any
starting store), and the number of admitted requests can never exceed
`max_requests`. -/
theorem c8_atomic_batch_no_lost_update (w : ℚ) (max_requests : ℤ)
    (z : ZSet) (times : List ℚ)
    (hsort : times.Sorted (· < ·))
    (hwin : ∀ a ∈ times, ∀ b ∈ times, b - a < w)
    (hmax : 0 ≤ max_requests) :
    (∀ i, i < times.length → (i : ℤ) + 1 ≤ nthCount w z times i) ∧
      (admittedCount w z times max_requests : ℤ) ≤ max_requests := by
  have hlow : ∀ i, i < times.length → (i : ℤ) + 1 ≤ nthCount w z times i := by
    intro i hi
    have := runCounts_lower w times [] z (by simp) (by simpa using hsort)
      (by simpa using hwin) i hi
    simpa [nthCount] using this
  refine ⟨hlow, ?_⟩
  have hbound : admittedCount w z times max_requests ≤ max_requests.toNat := by
    rw [admittedCount]
    apply countP_le_of_tail_false
    intro i hk hi
    have hi' : i < times.length := by
      rwa [runCounts_length] at hi
    have hge := hlow i hi'
    have hlt : max_requests < nthCount w z times i := by
      have hcast : (max_requests.toNat : ℤ) ≤ (i : ℤ) := by exact_mod_cast hk
      rw [Int.toNat_of_nonneg hmax] at hcast
      have : max_requests + 1 ≤ (i : ℤ) + 1 := by linarith
      calc max_requests < max_requests + 1 := by linarith
        _ ≤ (i : ℤ) + 1 := this
        _ ≤ nthCount w z times i := hge
    have htrue : isRateLimited ((runCounts w z times).getD i 0) max_requests = true := by
      simp only [isRateLimited, decide_eq_true_eq]
      exact hlt
    show decide
      (isRateLimited ((runCounts w z times).getD i 0) max_requests = false) = false
    rw [htrue]
    simp
  calc (admittedCount w z times max_requests : ℤ)
      ≤ (max_requests.toNat : ℤ) := by exact_mod_cast hbound
    _ = max_requests := Int.toNat_of_nonneg hmax

/-- Witness for C8: two in-window requests against a store that already
holds unrelated data; each count includes the earlier insertion and only
one request is admitted under `max_requests = 1`. -/
theorem c8_atomic_batch_no_lost_update_witness :
    (1 : ℤ) ≤ nthCount 2 ⟨[10], none⟩ [0, 1] 0 ∧
    (2 : ℤ) ≤ nthCount 2 ⟨[10], none⟩ [0, 1] 1 ∧
    (admittedCount 2 ⟨[10], none⟩ [0, 1] 1 : ℤ) ≤ 1 := by
  have h := c8_atomic_batch_no_lost_update 2 1 ⟨[10], none⟩ [0, 1]
    (by norm_num [List.sorted_cons])
    (by intro a ha b hb; fin_cases ha <;> fin_cases hb <;> norm_num)
    (by norm_num)
  refine ⟨?_, ?_, h.2⟩
  · have := h.1 0 (by norm_num)
    simpa using this
  · have := h.1 1 (by norm_num)
    simpa using this

/-- C3 counterexample: at `now = 5`, `window_size = 2` — so
`window_start = 3` — with the store holding exactly the timestamp `3`,
the claim predicts the timestamp equal to `window_start` is kept, but the
code's removal step `ZREMRANGEBYSCORE key 0 window_start` deletes it. -/
theorem c3_boundary_removed_counterexample :
    (zremrangebyscore ⟨[(3 : ℚ)], none⟩ 0 (5 - 2)).1 ≠
      specRemoveStrictlyBelow ⟨[(3 : ℚ)], none⟩ (5 - 2) ∧
    (zremrangebyscore ⟨[(3 : ℚ)], none⟩ 0 (5 - 2)).1.scores = [] ∧
    (specRemoveStrictlyBelow ⟨[(3 : ℚ)], none⟩ (5 - 2)).scores = [(3 : ℚ)] := by
  have h1 : (zremrangebyscore ⟨[(3 : ℚ)], none⟩ 0 (5 - 2)).1.scores = [] := by
    rw [zrem_scores]
    norm_num [List.filter]
  have h2 : (specRemoveStrictlyBelow ⟨[(3 : ℚ)], none⟩ (5 - 2)).scores
      = [(3 : ℚ)] := by
    norm_num [specRemoveStrictlyBelow, List.filter]
  refine ⟨?_, h1, h2⟩
  intro hcon
  rw [hcon, h2] at h1
  exact List.cons_ne_nil _ _ h1

/-- C3 (amended): on every evaluation the removal step deletes exactly
the recorded timestamps `t` with `0 ≤ t ≤ window_start` — for a store of
nonnegative timestamps, exactly those at or below `window_start`, the
boundary timestamp included, not kept — and `current_count` then counts
the timestamps of the post-removal, post-insert set lying within
`[window_start, now]`, both bounds inclusive. -/
theorem c3_removal_and_count_amended (z : ZSet) (now w : ℚ)
    (hpos : ∀ t ∈ z.scores, 0 ≤ t) :
    (zremrangebyscore z 0 (now - w)).1.scores =
      z.scores.filter (fun t => ¬ t ≤ now - w) ∧
    currentCount z now w =
      ((zadd (zremrangebyscore z 0 (now - w)).1 now).1.scores.countP
        (fun t => decide (now - w ≤ t ∧ t ≤ now)) : ℤ) := by
  constructor
  · rw [zrem_scores]
    apply List.filter_congr
    intro a ha
    have h0 := hpos a ha
    simp [h0]
  · rw [currentCount_eq_zcount, zcount_eq]

/-- Witness for C3's amended statement: with store `{3, 4}`, `now = 5`
and `window_size = 2`, the boundary timestamp 3 is removed, 4 is kept,
and the count over `[3, 5]` of the resulting set `{4, 5}` is 2. -/
theorem c3_removal_and_count_amended_witness :
    (zremrangebyscore ⟨[(3 : ℚ), 4], none⟩ 0 (5 - 2)).1.scores = [(4 : ℚ)] ∧
    currentCount ⟨[(3 : ℚ), 4], none⟩ 5 2 = 2 := by
  have h := c3_removal_and_count_amended ⟨[(3 : ℚ), 4], none⟩ 5 2
    (by intro t ht; fin_cases ht <;> norm_num)
  constructor
  · rw [h.1]
    norm_num [List.filter]
  · rw [h.2]
    norm_num [zremrangebyscore, zadd, List.filter, List.countP, List.countP.go]

/-- C9: for `now ≥ 0` and an integer `window_size ≥ 1`, the code's
`int(now + self.window_size)` equals `floor(now) + window_size`. -/
theorem c9_window_reset_floor (now : ℚ) (window_size : ℤ)
    (hnow : 0 ≤ now) (hw : 1 ≤ window_size) :
    windowReset now (window_size : ℚ) = ⌊now⌋ + window_size := by
  have hws : (0 : ℚ) ≤ (window_size : ℚ) := by
    exact_mod_cast le_trans zero_le_one hw
  have hpos : 0 ≤ now + (window_size : ℚ) := by linarith
  rw [windowReset, pyInt, if_pos hpos]
  exact_mod_cast Int.floor_add_int now window_size

/-- Witness for C9: `int(3.5 + 2) = 5 = floor(3.5) + 2`. -/
theorem c9_window_reset_floor_witness :
    windowReset (7 / 2) ((2 : ℤ) : ℚ) = 5 := by
  rw [c9_window_reset_floor (7 / 2) 2 (by norm_num) (by norm_num)]
  have hfl : ⌊(7 / 2 : ℚ)⌋ = 3 := by
    rw [Int.floor_eq_iff]
    norm_num
  rw [hfl]
  norm_num

/-- Reading after writing a different key is unchanged. -/
theorem kget_kset_ne (s : KeyedStore) (k k' : String) (z : ZSet)
    (h : k' ≠ k) : kget (kset s k z) k' = kget s k' := by
  induction s with
  | nil =>
      have : ¬ k = k' := fun hh => h hh.symm
      simp [kset, kget, this]
  | cons p rest ih =>
      obtain ⟨k0, z0⟩ := p
      by_cases h0 : k0 = k
      · subst h0
        have hne : ¬ k0 = k' := fun hh => h hh.symm
        simp [kset, kget, hne]
      · simp [kset, kget, h0, ih]

/-- Reading back the key just written. -/
theorem kget_kset_eq (s : KeyedStore) (k : String) (z : ZSet) :
    kget (kset s k z) k = z := by
  induction s with
  | nil => simp [kset, kget]
  | cons p rest ih =>
      obtain ⟨k0, z0⟩ := p
      by_cases h0 : k0 = k
      · subst h0
        simp [kset, kget]
      · simp [kset, kget, h0, ih]

/-- C10: a gated request on a connection without a client address
resolves its key to the literal "unknown"; such a request touches only
the store entry `ratelimit:unknown`, and any two of them share that one
window and counter — a second in-window no-address request observes
`current_count = 2`. -/
theorem c10_unknown_client_shared (s : KeyedStore) (now t1 t2 w : ℚ)
    (hlt : t1 < t2) (hwin : t2 - t1 < w) (hw : 0 < w) :
    resolveClientIp none = "unknown" ∧
    (∀ k, k ≠ "ratelimit:unknown" →
      kget (gateEval s none now w).1 k = kget s k) ∧
    (gateEval (gateEval [] none t1 w).1 none t2 w).2.1 = 2 := by
  have hkey : redisKey (resolveClientIp none) = "ratelimit:unknown" := rfl
  refine ⟨rfl, ?_, ?_⟩
  · intro k hk
    show kget (kset s (redisKey (resolveClientIp none)) _) k = kget s k
    rw [hkey]
    exact kget_kset_ne s _ k _ hk
  · have hz1 : (rateLimitPipe ZSet.empty t1 w).1 = ⟨[t1], some w⟩ := by
      have := (pipe_step_exact w none [] t1 (by simp) (by simp) hw).1
      simpa [ZSet.empty] using this
    have hstep1 : (gateEval [] none t1 w).1 =
        [("ratelimit:unknown", (⟨[t1], some w⟩ : ZSet))] := by
      show kset [] (redisKey (resolveClientIp none))
          (rateLimitPipe (kget [] (redisKey (resolveClientIp none))) t1 w).1 =
        [("ratelimit:unknown", (⟨[t1], some w⟩ : ZSet))]
      rw [hkey]
      show kset [] "ratelimit:unknown" (rateLimitPipe ZSet.empty t1 w).1 = _
      rw [hz1]
      rfl
    have hcc2 : currentCount ⟨[t1], some w⟩ t2 w = 2 := by
      have := (pipe_step_exact w (some w) [t1] t2
        (by intro d hd; simp at hd; subst hd; exact hlt)
        (by intro d hd; simp at hd; subst hd; exact hwin)
        hw).2
      simpa using this
    rw [hstep1]
    show (rateLimitPipe
        (kget [("ratelimit:unknown", (⟨[t1], some w⟩ : ZSet))]
          (redisKey (resolveClientIp none))) t2 w).2.getD 2 0 = 2
    rw [hkey]
    show (rateLimitPipe (⟨[t1], some w⟩ : ZSet) t2 w).2.getD 2 0 = 2
    exact hcc2

/-- Witness for C10 at concrete inputs: key resolution, isolation of the
other key `ratelimit:a`, and the shared count 2. -/
theorem c10_unknown_client_shared_witness :
    resolveClientIp none = "unknown" ∧
    kget (gateEval [("ratelimit:a", (⟨[(5 : ℚ)], none⟩ : ZSet))] none 0 2).1
        "ratelimit:a" =
      kget [("ratelimit:a", (⟨[(5 : ℚ)], none⟩ : ZSet))] "ratelimit:a" ∧
    (gateEval (gateEval [] none 0 2).1 none 1 2).2.1 = 2 := by
  have h := c10_unknown_client_shared
    [("ratelimit:a", (⟨[(5 : ℚ)], none⟩ : ZSet))] 0 0 1 2
    (by norm_num) (by norm_num) (by norm_num)
  exact ⟨h.1, h.2.1 "ratelimit:a" (by decide), h.2.2⟩

/-- C2 is refuted on the code: when the Redis pipeline raises, the
`except` handler at rate_limit.py lines 72-80 first evaluates
`logging.ERROR`, and since `rate_limit.py` never imports `logging`, that
lookup raises `NameError`, which propagates to the caller instead of the
fail-open pair `(0, int(now + window_size))` that the handler would
return; the intended fail-open behaviour is what
`checkRateLimitIntended` computes. -/
theorem c2_fail_open_broken :
    checkRateLimit (Except.error (PyErr.exception "Redis connection error"))
        (7 / 2) 2 =
      Except.error (PyErr.nameError "logging") ∧
    checkRateLimitIntended
        (Except.error (PyErr.exception "Redis connection error")) (7 / 2) 2 =
      Except.ok (0, windowReset (7 / 2) 2) ∧
    checkRateLimit (Except.error (PyErr.exception "Redis connection error"))
        (7 / 2) 2 ≠
      Except.ok (0, windowReset (7 / 2) 2) := by
  refine ⟨rfl, rfl, ?_⟩
  intro hcon
  exact Except.noConfusion hcon

/-- C4: whenever the check reports a limited request, the gate
short-circuits — the wrapped application is not invoked — and sends
exactly the 429 response start carrying `content-type`,
`X-RateLimit-Limit`, `X-RateLimit-Remaining = "0"` and
`X-RateLimit-Reset`, followed by the JSON body
`{"error": "Rate limit exceeded", "reset_at": <window_reset>}`. -/
theorem c4_rejection_response (max_requests current_count window_reset : ℤ)
    (h : isRateLimited current_count max_requests = true) :
    (gateDispatch max_requests current_count window_reset).2 = false ∧
    (gateDispatch max_requests current_count window_reset).1 =
      [SentMessage.start 429
        [("content-type", "application/json"),
         ("X-RateLimit-Limit", toString max_requests),
         ("X-RateLimit-Remaining", "0"),
         ("X-RateLimit-Reset", toString window_reset)],
       SentMessage.body (jsonRateLimitBody window_reset)] := by
  rw [gateDispatch, if_pos h]
  exact ⟨rfl, rfl⟩

/-- Witness for C4: `current_count = 4` against `max_requests = 3` with
`window_reset = 1700`. -/
theorem c4_rejection_response_witness :
    (gateDispatch 3 4 1700).2 = false ∧
    (gateDispatch 3 4 1700).1 =
      [SentMessage.start 429
        [("content-type", "application/json"),
         ("X-RateLimit-Limit", toString (3 : ℤ)),
         ("X-RateLimit-Remaining", "0"),
         ("X-RateLimit-Reset", toString (1700 : ℤ))],
       SentMessage.body (jsonRateLimitBody 1700)] :=
  c4_rejection_response 3 4 1700 (by decide)

end RateLimit

namespace Trace

/-- C5: for every tool scope opened over a non-empty context slot and
every body — normal or raising, even one that rewrote the slot — scope
exit restores the slot to exactly the context active before the scope
opened, closes the scope's context by assigning `end_time`, and
propagates the body's outcome. -/
theorem c5_tool_scope_restores (sequence_id : String) (tStart tEnd : ℚ)
    (tool_name reason : String) (parent : ExecutionContext)
    (body : ScopeBody) :
    (tool_sequence sequence_id tStart tEnd tool_name reason (some parent)
        body).storage = some parent ∧
    (tool_sequence sequence_id tStart tEnd tool_name reason (some parent)
        body).created =
      some { toolCtx parent sequence_id tool_name reason tStart with
              end_time := some tEnd } ∧
    (tool_sequence sequence_id tStart tEnd tool_name reason (some parent)
        body).result =
      (body (some (toolCtx parent sequence_id tool_name reason tStart))).1 :=
  ⟨rfl, rfl, rfl⟩

/-- C6: opening a tool scope with an empty context slot fails immediately
with the scope-misuse `RuntimeError`: no context is created, nothing is
pushed (the slot stays empty), and no event is emitted. -/
theorem c6_tool_scope_requires_task (sequence_id : String) (tStart tEnd : ℚ)
    (tool_name reason : String) (body : ScopeBody) :
    tool_sequence sequence_id tStart tEnd tool_name reason none body =
      { result := Except.error
          (TraceErr.runtimeError "Tool sequence must be within a task sequence")
        storage := none
        events := []
        created := none } :=
  rfl

/-- C7: opening task `T`, then tool `A` inside it, then tool `B` inside
`A` yields `B.parent_sequence_id = A.sequence_id`,
`A.parent_sequence_id = T.sequence_id`,
`B.step_number = A.step_number + 1 = T.step_number + 2`, and all three
contexts carry the same `task_id`; the context a `tool_sequence` scope
under `A` creates and closes is exactly `B`. -/
theorem c7_nested_scope_lineage (task_id seqT descT : String) (t0 : ℚ)
    (seqA nameA reasonA : String) (t1 : ℚ)
    (seqB nameB reasonB : String) (t2 : ℚ) (tEnd : ℚ) (body : ScopeBody) :
    (toolCtx (taskCtx task_id seqT descT t0) seqA nameA reasonA
        t1).parent_sequence_id =
      some (taskCtx task_id seqT descT t0).sequence_id ∧
    (toolCtx (toolCtx (taskCtx task_id seqT descT t0) seqA nameA reasonA t1)
        seqB nameB reasonB t2).parent_sequence_id =
      some (toolCtx (taskCtx task_id seqT descT t0) seqA nameA reasonA
        t1).sequence_id ∧
    (toolCtx (toolCtx (taskCtx task_id seqT descT t0) seqA nameA reasonA t1)
        seqB nameB reasonB t2).step_number =
      (toolCtx (taskCtx task_id seqT descT t0) seqA nameA reasonA
        t1).step_number + 1 ∧
    (toolCtx (taskCtx task_id seqT descT t0) seqA nameA reasonA
        t1).step_number =
      (taskCtx task_id seqT descT t0).step_number + 1 ∧
    (toolCtx (toolCtx (taskCtx task_id seqT descT t0) seqA nameA reasonA t1)
        seqB nameB reasonB t2).step_number =
      (taskCtx task_id seqT descT t0).step_number + 2 ∧
    (taskCtx task_id seqT descT t0).step_number = 0 ∧
    (toolCtx (taskCtx task_id seqT descT t0) seqA nameA reasonA t1).task_id =
      task_id ∧
    (toolCtx (toolCtx (taskCtx task_id seqT descT t0) seqA nameA reasonA t1)
        seqB nameB reasonB t2).task_id = task_id ∧
    (tool_sequence seqB t2 tEnd nameB reasonB
        (some (toolCtx (taskCtx task_id seqT descT t0) seqA nameA reasonA t1))
        body).created =
      some { toolCtx
              (toolCtx (taskCtx task_id seqT descT t0) seqA nameA reasonA t1)
              seqB nameB reasonB t2 with
             end_time := some tEnd } :=
  ⟨rfl, rfl, rfl, rfl, rfl, rfl, rfl, rfl, rfl⟩

end Trace
